import Mathlib

/-!
Verification of the spotty connection orchestrator and LMS playback notifier.

The definitions below are a shallow embedding of the two source files:
  - src/lms.rs   : the LMS playback notifier (struct LMS and its methods)
  - src/main.rs  : the Main event orchestrator (Main::poll, Main::credentials)

Pure data flow is translated to Lean functions; the effectful parts
(HTTP requests, task spawning, shutdown requests) are reified as an
explicit effect trace, and one pass of the poll loop body becomes a
function from the orchestrator state and the readiness of each event
source to a result (either terminated, or a new state plus effects).
-/

namespace Spotty

/-- PlayerEvent, the tagged playback-event variant consumed by the
notifier (librespot's PlayerEvent as matched in src/lms.rs). Track ids
are represented by their base62 string form, volume by its Nat value. -/
inductive PlayerEvent where
  | Changed (old_track_id new_track_id : String)
  | Started (track_id : String)
  | Stopped (track_id : String)
  | Volume (volume : Nat)
  | Seek (position : Nat)
deriving DecidableEq, Repr

/-- The observable content of one outbound HTTP POST built by
LMS::request: the target URL, the JSON body, and the optional
Authorization header value. -/
structure HttpPost where
  url : String
  body : String
  authHeader : Option String
deriving DecidableEq, Repr

/-- The LMS notifier state (struct LMS in src/lms.rs). -/
structure LMS where
  base_url : Option String
  player_mac : Option String
  auth : Option String
deriving DecidableEq, Repr

/-- LMS::new (src/lms.rs lines 22-28): the base url is always wrapped as
http:// host /jsonrpc.js, with host defaulting to localhost:9000 when
the argument is absent. -/
def LMS.new (base_url player_mac auth : Option String) : LMS :=
  { base_url := some ("http://" ++ base_url.getD "localhost:9000" ++ "/jsonrpc.js"),
    player_mac := player_mac,
    auth := auth }

/-- LMS::is_configured (src/lms.rs lines 30-38). -/
def LMS.is_configured (l : LMS) : Bool :=
  if l.base_url.isSome then
    if l.player_mac.isSome then
      true
    else
      false
  else
    false

/-- LMS::request (src/lms.rs lines 91-133): when configured, format the
JSON-RPC body and issue exactly one POST; otherwise no call is made.
The returned Option holds the single POST that would be issued. -/
def LMS.request (l : LMS) (command : String) : Option HttpPost :=
  if !l.is_configured then
    none
  else
    match l.base_url with
    | some base_url =>
      match l.player_mac with
      | some player_mac =>
        some { url := base_url,
               body := "\x7b\"id\": 1,\"method\":\"slim.request\",\"params\":[\""
                         ++ player_mac ++ "\"," ++ command ++ "]\x7d",
               authHeader := l.auth.map (fun a => "Basic " ++ a) }
      | none => none
    | none => none

/-- LMS::play (src/lms.rs lines 74-76): no track id is included. -/
def LMS.play (l : LMS) : Option HttpPost :=
  l.request "[\"spottyconnect\",\"start\"]"

/-- LMS::stop (src/lms.rs lines 78-80). -/
def LMS.stop (l : LMS) : Option HttpPost :=
  l.request "[\"spottyconnect\",\"stop\"]"

/-- LMS::change (src/lms.rs lines 82-84): no track ids are included. -/
def LMS.change (l : LMS) : Option HttpPost :=
  l.request "[\"spottyconnect\",\"change\"]"

/-- LMS::volume (src/lms.rs lines 86-89). -/
def LMS.volume (l : LMS) (volume : Nat) : Option HttpPost :=
  l.request ("[\"spottyconnect\",\"volume\"," ++ toString volume ++ "]")

/-- LMS::signal_event (src/lms.rs lines 40-72): the dispatch from a
playback event to the notifier method; track ids and seek position are
only used for debug logging, never in the outbound command. -/
def LMS.signal_event (l : LMS) : PlayerEvent → Option HttpPost
  | PlayerEvent.Changed _ _ => l.change
  | PlayerEvent.Started _ => l.play
  | PlayerEvent.Stopped _ => l.stop
  | PlayerEvent.Volume v => l.volume v
  | PlayerEvent.Seek _ => l.change

/-- Modelled from the spec (amended): the command array the code
actually sends for each event, to be compared with signal_event.
Unlike the original spec text, start and change carry no track ids. -/
def specCommandFor : PlayerEvent → String
  | PlayerEvent.Changed _ _ => "[\"spottyconnect\",\"change\"]"
  | PlayerEvent.Started _ => "[\"spottyconnect\",\"start\"]"
  | PlayerEvent.Stopped _ => "[\"spottyconnect\",\"stop\"]"
  | PlayerEvent.Volume v => "[\"spottyconnect\",\"volume\"," ++ toString v ++ "]"
  | PlayerEvent.Seek _ => "[\"spottyconnect\",\"change\"]"

/-- C1 counterexample: a configured notifier receiving Started with
track id abc issues a POST whose command array is
[spottyconnect,start] with no track id, so the body differs from the
one the claim requires (which embeds the track id). -/
theorem C1_counterexample :
    (LMS.new (some "h") (some "ma:c0") none).signal_event (PlayerEvent.Started "abc") =
      some { url := "http://h/jsonrpc.js",
             body := "\x7b\"id\": 1,\"method\":\"slim.request\",\"params\":[\"ma:c0\",[\"spottyconnect\",\"start\"]]\x7d",
             authHeader := none }
    ∧ "\x7b\"id\": 1,\"method\":\"slim.request\",\"params\":[\"ma:c0\",[\"spottyconnect\",\"start\"]]\x7d"
        ≠ "\x7b\"id\":1,\"method\":\"slim.request\",\"params\":[\"ma:c0\",[\"spottyconnect\",\"start\",\"abc\"]]\x7d" := by
  constructor
  · rfl
  · decide

/-- C1 (amended): for every playback event received under a configured
notifier (built with a host and a player mac), exactly one POST is
issued, whose JSON body is the slim.request wrapper around the mac and
the command array given by the actual mapping: Started yields
[spottyconnect,start] with no track id, Stopped yields
[spottyconnect,stop], Changed yields [spottyconnect,change] with no
track ids, Volume level yields [spottyconnect,volume,level], and Seek
yields [spottyconnect,change]. -/
theorem C1_command_mapping (host mac : String) (auth : Option String) (e : PlayerEvent) :
    (LMS.new (some host) (some mac) auth).signal_event e =
      some { url := "http://" ++ host ++ "/jsonrpc.js",
             body := "\x7b\"id\": 1,\"method\":\"slim.request\",\"params\":[\""
                       ++ mac ++ "\"," ++ specCommandFor e ++ "]\x7d",
             authHeader := auth.map (fun a => "Basic " ++ a) } := by
  cases e <;> rfl

/-- C4 counterexample: a notifier constructed with an absent target
address argument but a supplied device identifier still reports
configured, because LMS::new defaults the address; so after
construction configured() is not equivalent to both arguments having
been supplied. -/
theorem C4_counterexample :
    (LMS.new none (some "ab:cd:ef:12:34:56") none).is_configured = true := by
  decide

/-- C4 (amended): on the stored state, is_configured is false iff the
stored target address or the stored device identifier is absent; after
construction via LMS::new the target address is always present, so
is_configured is true iff the device identifier was supplied,
independent of the address argument. -/
theorem C4_configured_iff (b p a : Option String) :
    ((LMS.mk b p a).is_configured = false ↔ (b = none ∨ p = none))
    ∧ (LMS.new b p a).is_configured = p.isSome := by
  constructor
  · cases b <;> cases p <;> simp [LMS.is_configured]
  · cases p <;> rfl

/-- C8: notifying Seek with any position produces exactly the same
outbound request as notifying Changed with any track identifiers; both
paths invoke LMS::change. -/
theorem C8_seek_equals_change (l : LMS) (position : Nat) (old_track new_track : String) :
    l.signal_event (PlayerEvent.Seek position) =
      l.signal_event (PlayerEvent.Changed old_track new_track) := by
  rfl

/-- C10: after construction via LMS::new the target address is always
present (a supplied host is wrapped as http:// host /jsonrpc.js and an
absent host defaults to http://localhost:9000/jsonrpc.js), so
is_configured is true exactly when a device identifier was supplied. -/
theorem C10_new_defaults (b p a : Option String) (host : String) :
    ((LMS.new b p a).base_url).isSome = true
    ∧ (LMS.new (some host) p a).base_url = some ("http://" ++ host ++ "/jsonrpc.js")
    ∧ (LMS.new none p a).base_url = some "http://localhost:9000/jsonrpc.js"
    ∧ (LMS.new b p a).is_configured = p.isSome := by
  refine ⟨rfl, rfl, rfl, ?_⟩
  cases p <;> rfl

/-! Orchestrator embedding (src/main.rs, struct Main and its poll loop).
One pass of the loop body of Main::poll becomes a function from the
orchestrator state and the readiness of each event source to a result.
Opaque handles are tracked by presence: spirc is the Option Spirc
control handle, spircTask the Option SpircTask handle, connectPending
whether self.connect is a live connect future rather than the empty
future, playerEventChannel the Option player-event receiver. -/

/-- The orchestrator state (struct Main, src/main.rs lines 297-318). -/
structure MainState where
  discoveryEnabled : Bool
  spirc : Bool
  spircTask : Bool
  connectPending : Bool
  shutdown : Bool
  lastCredentials : Option String
  autoConnectTimes : List Nat
  authenticate : Bool
  playerEventChannel : Bool
deriving DecidableEq, Repr

/-- Readiness of the five polled event sources during one pass of the
poll loop body, plus the current time in seconds. -/
structure PollInputs where
  discoveryReady : Option String
  connectReady : Bool
  signalReady : Bool
  spircTaskReady : Bool
  playerEvent : Option PlayerEvent
  now : Nat
deriving DecidableEq, Repr

/-- The externally visible actions one poll pass can perform. -/
inductive Effect where
  | spircShutdownRequested
  | sessionConnectStarted (credentials : String)
  | spawnOldSpircTask
  | protocolTaskSpawned
  | playbackNotified (event : PlayerEvent)
deriving DecidableEq, Repr

/-- Result of one poll pass: either the future resolves (Ready, the
orchestrator terminates) or it keeps going with a new state. -/
inductive PollResult where
  | ready (effects : List Effect)
  | pending (state : MainState) (effects : List Effect)
deriving DecidableEq, Repr

/-- Main::credentials (src/main.rs lines 358-371): remember the
credentials, start a new session connect, drop the control handle, and
detach any previous protocol task by spawning it on the reactor. -/
def MainState.credentials (s : MainState) (credentials : String) :
    MainState × List Effect :=
  ({ s with lastCredentials := some credentials,
            connectPending := true,
            spirc := false,
            spircTask := false },
   [Effect.sessionConnectStarted credentials]
     ++ (if s.spircTask then [Effect.spawnOldSpircTask] else []))

/-- The lazy prune of the reconnect history (src/main.rs lines 466-470):
remove entries from the front while the oldest is more than 600 seconds
old. -/
def prune (now : Nat) : List Nat → List Nat
  | [] => []
  | t :: ts => if 600 < now - t then prune now ts else t :: ts

/-- The automatic-reconnect policy (src/main.rs lines 464-481): prune
the history, then, when last credentials exist, either suppress the
reconnect (5 or more recent attempts) or record the attempt and return
the credentials to reconnect with. -/
def reconnectPolicy (now : Nat) (lastCredentials : Option String)
    (times : List Nat) : List Nat × Option String :=
  let times := prune now times
  match lastCredentials with
  | some credentials =>
    if 5 ≤ times.length then
      (times, none)
    else
      (times ++ [now], some credentials)
  | none => (times, none)

/-- Event source 1, discovery (src/main.rs lines 382-392): fresh
credentials shut down any live spirc, clear the reconnect history, and
start a new connect. -/
def pollDiscovery (s : MainState) (inp : PollInputs) : MainState × List Effect :=
  match (if s.discoveryEnabled then inp.discoveryReady else none) with
  | some creds =>
    let effs := if s.spirc then [Effect.spircShutdownRequested] else []
    let s := { s with autoConnectTimes := [] }
    let r := s.credentials creds
    (r.1, effs ++ r.2)
  | none => (s, [])

/-- Event source 5, the playback-event stream (src/main.rs lines
483-487): forward the event to the notifier, then the pass ends. -/
def afterTask (s : MainState) (inp : PollInputs) (effs : List Effect) : PollResult :=
  if s.playerEventChannel then
    match inp.playerEvent with
    | some event => PollResult.pending s (effs ++ [Effect.playbackNotified event])
    | none => PollResult.pending s effs
  else
    PollResult.pending s effs

/-- Event source 4, protocol-task completion (src/main.rs lines
451-481): while shutting down this terminates; otherwise drop the task
handle and consult the reconnect policy. -/
def afterSignal (s : MainState) (inp : PollInputs) (effs : List Effect) : PollResult :=
  if s.spircTask && inp.spircTaskReady then
    if s.shutdown then
      PollResult.ready effs
    else
      let s := { s with spircTask := false }
      let r := reconnectPolicy inp.now s.lastCredentials s.autoConnectTimes
      let s := { s with autoConnectTimes := r.1 }
      match r.2 with
      | some credentials =>
        let c := s.credentials credentials
        afterTask c.1 inp (effs ++ c.2)
      | none => afterTask s inp effs
  else
    afterTask s inp effs

/-- Event source 3, the shutdown signal (src/main.rs lines 436-449): a
first signal with a live spirc requests cooperative shutdown and marks
shutting down; a first signal with no live spirc, or any signal while
already shutting down, terminates immediately. -/
def afterConnect (s : MainState) (inp : PollInputs) (effs : List Effect) : PollResult :=
  if inp.signalReady then
    if !s.shutdown then
      if s.spirc then
        afterSignal { s with shutdown := true } inp
          (effs ++ [Effect.spircShutdownRequested])
      else
        PollResult.ready effs
    else
      PollResult.ready effs
  else
    afterSignal s inp effs

/-- One pass of the loop body of Main::poll (src/main.rs lines
379-492), evaluating the five event sources in the fixed source order:
discovery, connect-in-flight, signal, protocol-task completion,
playback events. Event source 2 (src/main.rs lines 394-434): in
authenticate mode a completed connect shuts down any live spirc and
terminates; otherwise the player, spirc and protocol task are
constructed and the event channel installed. -/
def pollPass (s : MainState) (inp : PollInputs) : PollResult :=
  let d := pollDiscovery s inp
  let s := d.1
  let effs := d.2
  if s.connectPending && inp.connectReady then
    if s.authenticate then
      if !s.shutdown then
        PollResult.ready
          (effs ++ (if s.spirc then [Effect.spircShutdownRequested] else []))
      else
        afterConnect s inp effs
    else
      afterConnect
        { s with connectPending := false, spirc := true, spircTask := true,
                 playerEventChannel := true }
        inp (effs ++ [Effect.protocolTaskSpawned])
  else
    afterConnect s inp effs

/-- A pass in which no event source is ready. -/
def idleInputs (n : Nat) : PollInputs :=
  { discoveryReady := none, connectReady := false, signalReady := false,
    spircTaskReady := false, playerEvent := none, now := n }

/-- A pass in which only the shutdown signal fired. -/
def signalOnly (n : Nat) : PollInputs :=
  { idleInputs n with signalReady := true }

/-- A pass in which only the protocol-task completion fired. -/
def taskOnly (n : Nat) : PollInputs :=
  { idleInputs n with spircTaskReady := true }

/-- A pass in which only discovery fired, yielding fresh credentials. -/
def discoveryOnly (c : String) (n : Nat) : PollInputs :=
  { idleInputs n with discoveryReady := some c }

/-- Iterate poll passes over a list of per-pass inputs; none means the
orchestrator terminated during the run. -/
def pollRun (s : MainState) : List PollInputs → Option MainState
  | [] => some s
  | inp :: rest =>
    match pollPass s inp with
    | PollResult.ready _ => none
    | PollResult.pending s' _ => pollRun s' rest

/-- Iterate poll passes, also accumulating the full effect trace. -/
def pollRunEffects (s : MainState) : List PollInputs → Option MainState × List Effect
  | [] => (some s, [])
  | inp :: rest =>
    match pollPass s inp with
    | PollResult.ready effs => (none, effs)
    | PollResult.pending s' effs =>
      let r := pollRunEffects s' rest
      (r.1, effs ++ r.2)

/-- Number of live Session control handles owned by the orchestrator. -/
def liveSessions (s : MainState) : Nat := if s.spirc then 1 else 0

/-- Number of live protocol-task handles owned by the orchestrator. -/
def liveTasks (s : MainState) : Nat := if s.spircTask then 1 else 0

/-- afterTask always keeps going with the state it was given. -/
lemma afterTask_state (s : MainState) (inp : PollInputs) (effs : List Effect) :
    ∃ e2, afterTask s inp effs = PollResult.pending s e2 := by
  unfold afterTask
  cases hch : s.playerEventChannel <;> cases hev : inp.playerEvent <;>
    simp [hch, hev]

/-- Once the orchestrator is shutting down, afterSignal preserves that. -/
lemma afterSignal_shutdown (s : MainState) (inp : PollInputs) (effs : List Effect)
    (hsd : s.shutdown = true) :
    ∀ s' e2, afterSignal s inp effs = PollResult.pending s' e2 → s'.shutdown = true := by
  intro s' e2 h
  unfold afterSignal at h
  cases hg : (s.spircTask && inp.spircTaskReady)
  · rw [hg] at h
    simp only [Bool.false_eq_true, if_false] at h
    obtain ⟨e3, h3⟩ := afterTask_state s inp effs
    rw [h3] at h
    simp only [PollResult.pending.injEq] at h
    exact h.1 ▸ hsd
  · rw [hg] at h
    simp [hsd] at h

/-- A shutdown signal while already shutting down terminates. -/
lemma afterConnect_ready (s : MainState) (inp : PollInputs) (effs : List Effect)
    (hsd : s.shutdown = true) (hsig : inp.signalReady = true) :
    afterConnect s inp effs = PollResult.ready effs := by
  simp [afterConnect, hsd, hsig]

/-- Once the orchestrator is shutting down, afterConnect preserves that. -/
lemma afterConnect_shutdown (s : MainState) (inp : PollInputs) (effs : List Effect)
    (hsd : s.shutdown = true) :
    ∀ s' e2, afterConnect s inp effs = PollResult.pending s' e2 → s'.shutdown = true := by
  intro s' e2 h
  cases hsig : inp.signalReady
  · unfold afterConnect at h
    rw [hsig] at h
    simp only [Bool.false_eq_true, if_false] at h
    exact afterSignal_shutdown s inp effs hsd s' e2 h
  · rw [afterConnect_ready s inp effs hsd hsig] at h
    simp at h

/-- The discovery handler never changes the shutdown flag, the
authenticate flag, or the player-event channel. -/
lemma pollDiscovery_fields (s : MainState) (inp : PollInputs) :
    ((pollDiscovery s inp).1).shutdown = s.shutdown
    ∧ ((pollDiscovery s inp).1).authenticate = s.authenticate
    ∧ ((pollDiscovery s inp).1).playerEventChannel = s.playerEventChannel := by
  unfold pollDiscovery MainState.credentials
  cases hm : (if s.discoveryEnabled then inp.discoveryReady else none) <;> simp [hm]

/-- The shutting-down flag is never reset by a poll pass. -/
lemma pollPass_shutdown (s : MainState) (inp : PollInputs) (hsd : s.shutdown = true) :
    ∀ s' e2, pollPass s inp = PollResult.pending s' e2 → s'.shutdown = true := by
  intro s' e2 h
  unfold pollPass at h
  have hd := (pollDiscovery_fields s inp).1
  rw [hsd] at hd
  by_cases hc : ((pollDiscovery s inp).1.connectPending && inp.connectReady) = true
  · rw [if_pos hc] at h
    by_cases ha : (pollDiscovery s inp).1.authenticate = true
    · rw [if_pos ha] at h
      rw [hd] at h
      simp only [Bool.not_true, Bool.false_eq_true, if_false] at h
      exact afterConnect_shutdown _ inp _ hd s' e2 h
    · rw [if_neg ha] at h
      exact afterConnect_shutdown _ inp _ (by simp [hd]) s' e2 h
  · rw [if_neg hc] at h
    exact afterConnect_shutdown _ inp _ hd s' e2 h

/-- A shutdown signal received while already shutting down makes the
whole poll pass terminate, whatever else is ready. -/
lemma pollPass_ready_of_signal (s : MainState) (inp : PollInputs)
    (hsd : s.shutdown = true) (hsig : inp.signalReady = true) :
    ∃ effs, pollPass s inp = PollResult.ready effs := by
  have hd := (pollDiscovery_fields s inp).1
  rw [hsd] at hd
  unfold pollPass
  by_cases hc : ((pollDiscovery s inp).1.connectPending && inp.connectReady) = true
  · rw [if_pos hc]
    by_cases ha : (pollDiscovery s inp).1.authenticate = true
    · rw [if_pos ha, hd]
      simp only [Bool.not_true, Bool.false_eq_true, if_false]
      exact ⟨_, afterConnect_ready _ inp _ hd hsig⟩
    · rw [if_neg ha]
      exact ⟨_, afterConnect_ready _ inp _ (by simp [hd]) hsig⟩
  · rw [if_neg hc]
    exact ⟨_, afterConnect_ready _ inp _ hd hsig⟩

/-- The shutting-down flag persists across any surviving run. -/
lemma pollRun_shutdown (l : List PollInputs) :
    ∀ s : MainState, s.shutdown = true →
      ∀ s2, pollRun s l = some s2 → s2.shutdown = true := by
  induction l with
  | nil =>
    intro s hs s2 h
    simp only [pollRun, Option.some.injEq] at h
    exact h ▸ hs
  | cons inp rest ih =>
    intro s hs s2 h
    unfold pollRun at h
    cases hp : pollPass s inp with
    | ready e => rw [hp] at h; simp at h
    | pending s' e =>
      rw [hp] at h
      exact ih s' (pollPass_shutdown s inp hs s' e hp) s2 h

/-- Concrete orchestrator state: a live protocol task, discovery
disabled, no last-known credentials. -/
def stateNoCreds : MainState :=
  { discoveryEnabled := false, spirc := true, spircTask := true,
    connectPending := false, shutdown := false, lastCredentials := none,
    autoConnectTimes := [], authenticate := false, playerEventChannel := true }

/-- C3 counterexample: with a live protocol task completing
unexpectedly, no last-known credentials and discovery disabled, the
poll pass does not terminate: it keeps the orchestrator pending (with
the task handle cleared and no effect at all), instead of the
immediate fatal termination the claim requires. -/
theorem C3_counterexample :
    pollPass stateNoCreds (taskOnly 100) =
      PollResult.pending { stateNoCreds with spircTask := false } [] := by
  rfl

/-- C3 (amended): if the protocol task completes unexpectedly while no
last-known credentials exist, the orchestrator clears the task handle
and prunes the reconnect history, initiates no reconnect attempt (no
effects at all), and does not terminate: the pass stays pending, so
the process idles rather than exiting non-zero. -/
theorem C3_no_creds_no_reconnect (s : MainState) (n : Nat)
    (h1 : s.spircTask = true) (h2 : s.shutdown = false) (h3 : s.lastCredentials = none) :
    pollPass s (taskOnly n) =
      PollResult.pending
        { s with spircTask := false, autoConnectTimes := prune n s.autoConnectTimes }
        [] := by
  simp [pollPass, pollDiscovery, afterConnect, afterSignal, afterTask, taskOnly,
        idleInputs, reconnectPolicy, h1, h2, h3]

/-- C3 witness: the amended behavior evaluated at a concrete state. -/
theorem C3_witness :
    pollPass { stateNoCreds with playerEventChannel := false } (taskOnly 7) =
      PollResult.pending
        { stateNoCreds with
            playerEventChannel := false, spircTask := false,
            autoConnectTimes := prune 7 [] }
        [] :=
  C3_no_creds_no_reconnect { stateNoCreds with playerEventChannel := false } 7 rfl rfl rfl

/-- C5: a first shutdown signal with a live spirc requests its
cooperative shutdown and marks shutting down; from the marked state,
any later pass that receives the signal again terminates, no matter
what happened in between and even if the protocol task never
completes; and a first signal with no live spirc terminates at once. -/
theorem C5_double_signal (s : MainState) (n : Nat)
    (hspirc : s.spirc = true) (hsd : s.shutdown = false) :
    pollPass s (signalOnly n) =
      PollResult.pending { s with shutdown := true } [Effect.spircShutdownRequested]
    ∧ (∀ mid s2, pollRun { s with shutdown := true } mid = some s2 →
        ∀ inp2, inp2.signalReady = true →
          ∃ effs, pollPass s2 inp2 = PollResult.ready effs)
    ∧ (∀ (s' : MainState) (m : Nat), s'.spirc = false → s'.shutdown = false →
        pollPass s' (signalOnly m) = PollResult.ready []) := by
  refine ⟨?_, ?_, ?_⟩
  · simp [pollPass, pollDiscovery, afterConnect, afterSignal, afterTask, signalOnly,
          idleInputs, hspirc, hsd]
  · intro mid s2 hrun inp2 hsig2
    have hsd2 := pollRun_shutdown mid { s with shutdown := true } rfl s2 hrun
    exact pollPass_ready_of_signal s2 inp2 hsd2 hsig2
  · intro s' m h1 h2
    simp [pollPass, pollDiscovery, afterConnect, signalOnly, idleInputs, h1, h2]

/-- Concrete orchestrator state with a live session and protocol task. -/
def stateLive : MainState :=
  { discoveryEnabled := true, spirc := true, spircTask := true,
    connectPending := false, shutdown := false, lastCredentials := some "creds",
    autoConnectTimes := [], authenticate := false, playerEventChannel := true }

/-- C5 witness: the first-signal behavior evaluated concretely. -/
theorem C5_witness :
    pollPass stateLive (signalOnly 0) =
      PollResult.pending { stateLive with shutdown := true }
        [Effect.spircShutdownRequested] :=
  (C5_double_signal stateLive 0 rfl rfl).1

/-- C6: a discovery event while a session is live first requests the
cooperative shutdown of the live spirc and only then starts the new
connect with the new credentials (the effect order shows the shutdown
request precedes the connect), leaving a state with no live handles
until the new task is spawned; and the orchestrator state can never
hold more than one Session handle or more than one protocol-task
handle at an instant. -/
theorem C6_single_pair (s : MainState) (c : String) (n : Nat)
    (hd : s.discoveryEnabled = true) (hs : s.spirc = true) :
    pollPass s (discoveryOnly c n) =
      PollResult.pending
        { s with autoConnectTimes := [], lastCredentials := some c,
                 connectPending := true, spirc := false, spircTask := false }
        ([Effect.spircShutdownRequested, Effect.sessionConnectStarted c]
          ++ (if s.spircTask then [Effect.spawnOldSpircTask] else []))
    ∧ (∀ st : MainState, liveSessions st ≤ 1 ∧ liveTasks st ≤ 1) := by
  constructor
  · simp [pollPass, pollDiscovery, afterConnect, afterSignal, afterTask,
          discoveryOnly, idleInputs, MainState.credentials, hd, hs]
  · intro st
    refine ⟨?_, ?_⟩
    · unfold liveSessions; split <;> omega
    · unfold liveTasks; split <;> omega

/-- C6 witness: the discovery preemption evaluated concretely. -/
theorem C6_witness :
    pollPass stateLive (discoveryOnly "newcreds" 3) =
      PollResult.pending
        { stateLive with autoConnectTimes := [], lastCredentials := some "newcreds",
                         connectPending := true, spirc := false, spircTask := false }
        ([Effect.spircShutdownRequested, Effect.sessionConnectStarted "newcreds"]
          ++ (if stateLive.spircTask then [Effect.spawnOldSpircTask] else [])) :=
  (C6_single_pair stateLive "newcreds" 3 rfl rfl).1

/-- The state invariant of a run in authenticate-only mode: no spirc,
no protocol task, no player-event channel ever exist. -/
def authInv (s : MainState) : Prop :=
  s.authenticate = true ∧ s.spirc = false ∧ s.spircTask = false
    ∧ s.playerEventChannel = false

/-- The effects authenticate-only mode must never produce: spawning a
protocol task or emitting a playback notification. -/
def isForbidden : Effect → Bool
  | Effect.protocolTaskSpawned => true
  | Effect.playbackNotified _ => true
  | _ => false

/-- The discovery handler preserves the authenticate-only invariant and
produces no forbidden effect. -/
lemma pollDiscovery_authInv (s : MainState) (inp : PollInputs) (h : authInv s) :
    authInv (pollDiscovery s inp).1
    ∧ ((pollDiscovery s inp).2).all (fun e => !isForbidden e) = true := by
  obtain ⟨ha, hsp, hst, hch⟩ := h
  unfold pollDiscovery MainState.credentials
  cases hm : (if s.discoveryEnabled then inp.discoveryReady else none) <;>
    simp [hm, authInv, ha, hsp, hst, hch, isForbidden]

/-- Under the authenticate-only invariant, the tail of a poll pass
after the connect handler terminates or keeps the invariant, and adds
no forbidden effect. -/
lemma afterConnect_authInv (s : MainState) (inp : PollInputs) (effs : List Effect)
    (h : authInv s) (he : effs.all (fun e => !isForbidden e) = true) :
    (∀ e2, afterConnect s inp effs = PollResult.ready e2 →
       e2.all (fun e => !isForbidden e) = true)
    ∧ (∀ s' e2, afterConnect s inp effs = PollResult.pending s' e2 →
       authInv s' ∧ e2.all (fun e => !isForbidden e) = true) := by
  obtain ⟨ha, hsp, hst, hch⟩ := h
  simp only [List.all_eq_true, Bool.not_eq_true'] at he
  unfold afterConnect afterSignal afterTask
  cases hsig : inp.signalReady <;> cases hsd : s.shutdown <;>
    simp [hsp, hst, hch, hsig, hsd] <;>
    first
      | exact he
      | exact ⟨⟨ha, hsp, hst, hch⟩, he⟩

/-- One poll pass in authenticate-only mode preserves the invariant and
never spawns a protocol task or notifies playback. -/
lemma pollPass_authInv (s : MainState) (inp : PollInputs) (h : authInv s) :
    (∀ e2, pollPass s inp = PollResult.ready e2 →
       e2.all (fun e => !isForbidden e) = true)
    ∧ (∀ s' e2, pollPass s inp = PollResult.pending s' e2 →
       authInv s' ∧ e2.all (fun e => !isForbidden e) = true) := by
  obtain ⟨hd, hde⟩ := pollDiscovery_authInv s inp h
  unfold pollPass
  by_cases hc : ((pollDiscovery s inp).1.connectPending && inp.connectReady) = true
  · rw [if_pos hc, if_pos hd.1]
    cases hsd : (pollDiscovery s inp).1.shutdown
    · simp only [Bool.not_false, if_true]
      constructor
      · intro e2 h2
        simp only [PollResult.ready.injEq] at h2
        subst h2
        rw [List.all_append, hde]
        cases hg : (pollDiscovery s inp).1.spirc <;> simp [isForbidden]
      · intro s' e2 h2
        simp at h2
    · simp only [Bool.not_true, Bool.false_eq_true, if_false]
      exact afterConnect_authInv _ inp _ hd hde
  · rw [if_neg hc]
    exact afterConnect_authInv _ inp _ hd hde

/-- Over any whole run from an authenticate-only state, the accumulated
effect trace contains no protocol-task spawn and no notification. -/
lemma pollRunEffects_authInv (inputs : List PollInputs) :
    ∀ s : MainState, authInv s →
      ((pollRunEffects s inputs).2).all (fun e => !isForbidden e) = true := by
  induction inputs with
  | nil => intro s _; simp [pollRunEffects]
  | cons inp rest ih =>
    intro s h
    unfold pollRunEffects
    cases hp : pollPass s inp with
    | ready e => exact (pollPass_authInv s inp h).1 e hp
    | pending s' e =>
      obtain ⟨h', he⟩ := (pollPass_authInv s inp h).2 s' e hp
      simp only [List.all_append, he, Bool.true_and]
      exact ih s' h'

/-- C7: in authenticate-only mode the orchestrator never spawns a
protocol task and never emits a playback notification over any run;
and on a successful connect (while not yet shutting down) the pass
terminates at once, requesting shutdown of any live spirc and nothing
else, without constructing a player, protocol task, or playback-event
channel. -/
theorem C7_authenticate_only :
    (∀ (s : MainState) (inputs : List PollInputs), authInv s →
       ((pollRunEffects s inputs).2).all (fun e => !isForbidden e) = true)
    ∧ (∀ (s : MainState) (inp : PollInputs), s.authenticate = true →
       s.shutdown = false → s.connectPending = true → inp.connectReady = true →
       inp.discoveryReady = none →
       pollPass s inp =
         PollResult.ready
           (if s.spirc then [Effect.spircShutdownRequested] else [])) := by
  constructor
  · intro s inputs h
    exact pollRunEffects_authInv inputs s h
  · intro s inp ha hsd hcp hcr hdr
    simp [pollPass, pollDiscovery, hdr, ha, hsd, hcp, hcr]

/-- Concrete authenticate-only orchestrator state. -/
def stateAuth : MainState :=
  { discoveryEnabled := true, spirc := false, spircTask := false,
    connectPending := true, shutdown := false, lastCredentials := none,
    autoConnectTimes := [], authenticate := true, playerEventChannel := false }

/-- C7 witness: a concrete authenticate-only run emits no forbidden
effect. -/
theorem C7_witness :
    ((pollRunEffects stateAuth
        [discoveryOnly "c" 1, idleInputs 2, signalOnly 3]).2).all
      (fun e => !isForbidden e) = true :=
  C7_authenticate_only.1 stateAuth [discoveryOnly "c" 1, idleInputs 2, signalOnly 3]
    ⟨rfl, rfl, rfl, rfl⟩

/-- Membership of an attempt timestamp in the trailing 600-second
window ending at time T (both in seconds). -/
def inWindow (T a : Nat) : Bool := decide (a ≤ T ∧ T ≤ a + 600)

/-- Number of recorded reconnect attempts inside the trailing window
ending at T. -/
def windowCount (T : Nat) (atts : List Nat) : Nat :=
  (atts.filter (fun a => inWindow T a)).length

/-- Iterate the reconnect policy over a sequence of unexpected-drop
times, with last-known credentials present throughout; returns the
final history and the chronological list of times at which a reconnect
was actually initiated. -/
def runDrops (c : String) : List Nat → List Nat → List Nat × List Nat
  | h, [] => (h, [])
  | h, now :: rest =>
    let r := reconnectPolicy now (some c) h
    let rec2 := runDrops c r.1 rest
    match r.2 with
    | some _ => (rec2.1, now :: rec2.2)
    | none => rec2

/-- Pruning removes a prefix of entries, each more than 600 seconds
old at the pruning time. -/
lemma prune_split (now : Nat) (h : List Nat) :
    ∃ p, h = p ++ prune now h ∧ ∀ a ∈ p, a + 600 < now := by
  induction h with
  | nil => exact ⟨[], rfl, by simp⟩
  | cons t ts ih =>
    by_cases hc : 600 < now - t
    · obtain ⟨p, hp, hall⟩ := ih
      refine ⟨t :: p, ?_, ?_⟩
      · simp only [prune, if_pos hc, List.cons_append]
        exact congrArg (t :: ·) hp
      · intro a ha
        rcases List.mem_cons.mp ha with rfl | ha
        · omega
        · exact hall a ha
    · exact ⟨[], by simp [prune, hc], by simp⟩

/-- Filtering with a weaker predicate keeps at least as many elements,
when the implication holds on the list's members. -/
lemma filter_length_mono (l : List Nat) (p q : Nat → Bool)
    (h : ∀ a ∈ l, p a = true → q a = true) :
    (l.filter p).length ≤ (l.filter q).length := by
  induction l with
  | nil => simp
  | cons x xs ih =>
    have ih' := ih (fun a ha hp => h a (List.mem_cons_of_mem x ha) hp)
    by_cases hp : p x = true
    · rw [List.filter_cons_of_pos hp, List.filter_cons_of_pos (h x (List.mem_cons_self x xs) hp)]
      simpa using ih'
    · rw [List.filter_cons_of_neg (by simpa using hp)]
      cases hq : q x
      · rw [List.filter_cons_of_neg (by simp [hq])]
        exact ih'
      · rw [List.filter_cons_of_pos hq]
        exact le_trans ih' (by simp)

/-- windowCount distributes over list append. -/
lemma windowCount_append (T : Nat) (l1 l2 : List Nat) :
    windowCount T (l1 ++ l2) = windowCount T l1 + windowCount T l2 := by
  unfold windowCount
  rw [List.filter_append, List.length_append]

/-- windowCount vanishes on a list of out-of-window entries. -/
lemma windowCount_eq_zero (T : Nat) (l : List Nat)
    (h : ∀ a ∈ l, inWindow T a = false) : windowCount T l = 0 := by
  unfold windowCount
  have : l.filter (fun a => inWindow T a) = [] := by
    rw [List.filter_eq_nil_iff]
    intro a ha
    simp [h a ha]
  rw [this]
  rfl

/-- windowCount is bounded by the list length. -/
lemma windowCount_le_length (T : Nat) (l : List Nat) :
    windowCount T l ≤ l.length :=
  List.length_filter_le _ l

/-- Invariant of the rate-limiter state at current time tcur: the
recorded attempts decompose into long-dead entries followed by the
live history, all attempts are in the past, and every trailing window
holds at most 5 attempts. -/
def RLInv (tcur : Nat) (h atts : List Nat) : Prop :=
  (∃ d, atts = d ++ h ∧ ∀ a ∈ d, a + 600 < tcur)
    ∧ (∀ a ∈ atts, a ≤ tcur)
    ∧ (∀ T, windowCount T atts ≤ 5)

/-- One reconnect-policy step at a later time preserves the invariant,
with the step's own attempt (if admitted) appended. -/
lemma RLInv_step (tcur now : Nat) (h atts : List Nat) (c : String)
    (hinv : RLInv tcur h atts) (hle : tcur ≤ now) :
    RLInv now (reconnectPolicy now (some c) h).1
      (atts ++ (match (reconnectPolicy now (some c) h).2 with
                | some _ => [now]
                | none => [])) := by
  obtain ⟨⟨d, hd, hdead⟩, hbound, hwin⟩ := hinv
  obtain ⟨p, hp, hpb⟩ := prune_split now h
  have hdead' : ∀ a ∈ d ++ p, a + 600 < now := by
    intro a ha
    rcases List.mem_append.mp ha with h1 | h2
    · exact lt_of_lt_of_le (hdead a h1) hle
    · exact hpb a h2
  by_cases hlen : 5 ≤ (prune now h).length
  · have hr : reconnectPolicy now (some c) h = (prune now h, none) := by
      simp [reconnectPolicy, hlen]
    rw [hr]
    simp only [List.append_nil]
    refine ⟨⟨d ++ p, ?_, hdead'⟩, ?_, hwin⟩
    · rw [List.append_assoc, ← hp, ← hd]
    · intro a ha
      exact le_trans (hbound a ha) hle
  · have hr : reconnectPolicy now (some c) h = (prune now h ++ [now], some c) := by
      simp [reconnectPolicy, hlen]
    rw [hr]
    show RLInv now (prune now h ++ [now]) (atts ++ [now])
    refine ⟨⟨d ++ p, ?_, hdead'⟩, ?_, ?_⟩
    · rw [List.append_assoc, ← List.append_assoc p, ← hp, ← List.append_assoc d, ← hd]
    · intro a ha
      rcases List.mem_append.mp ha with h1 | h2
      · exact le_trans (hbound a h1) hle
      · simp at h2
        omega
    · intro T
      rw [windowCount_append]
      by_cases hw : inWindow T now = true
      · have hTn : now ≤ T ∧ T ≤ now + 600 := by
          simpa [inWindow] using hw
        have mono : windowCount T atts ≤ windowCount now atts := by
          apply filter_length_mono
          intro a ha hpa
          have ha' : a ≤ tcur := hbound a ha
          simp only [inWindow, decide_eq_true_eq] at hpa ⊢
          omega
        have hsplit : windowCount now atts ≤ 4 := by
          rw [hd, hp, windowCount_append, windowCount_append]
          have z1 : windowCount now d = 0 := by
            apply windowCount_eq_zero
            intro a ha
            have := hdead a ha
            simp only [inWindow, decide_eq_false_iff_not]
            omega
          have z2 : windowCount now p = 0 := by
            apply windowCount_eq_zero
            intro a ha
            have := hpb a ha
            simp only [inWindow, decide_eq_false_iff_not]
            omega
          have z3 : windowCount now (prune now h) ≤ 4 := by
            have := windowCount_le_length now (prune now h)
            omega
          omega
        have hone : windowCount T [now] ≤ 1 := windowCount_le_length T [now]
        omega
      · have hzero : windowCount T [now] = 0 := by
          apply windowCount_eq_zero
          intro a ha
          simp at ha
          subst ha
          simpa using hw
        have := hwin T
        omega

/-- Over any chronological drop sequence, the accumulated attempts plus
the run's attempts stay within 5 per trailing window. -/
lemma runDrops_bound (c : String) (drops : List Nat) :
    ∀ (tcur : Nat) (h atts : List Nat), drops.Pairwise (· ≤ ·) →
      (∀ x ∈ drops, tcur ≤ x) → RLInv tcur h atts →
      ∀ T, windowCount T (atts ++ (runDrops c h drops).2) ≤ 5 := by
  induction drops with
  | nil =>
    intro tcur h atts _ _ hinv T
    simp only [runDrops, List.append_nil]
    exact hinv.2.2 T
  | cons now rest ih =>
    intro tcur h atts hpw hlb hinv T
    have hle : tcur ≤ now := hlb now (List.mem_cons_self now rest)
    obtain ⟨hfa, hpw'⟩ := List.pairwise_cons.mp hpw
    have hstep := RLInv_step tcur now h atts c hinv hle
    simp only [runDrops]
    cases hr : (reconnectPolicy now (some c) h).2 with
    | none =>
      rw [hr] at hstep
      simp only [List.append_nil] at hstep
      have := ih now (reconnectPolicy now (some c) h).1 atts hpw' hfa hstep T
      simpa using this
    | some cr =>
      rw [hr] at hstep
      have := ih now (reconnectPolicy now (some c) h).1 (atts ++ [now]) hpw' hfa hstep T
      simpa [List.append_assoc] using this

/-- C2: the automatic-reconnect policy initiates at most 5 reconnect
attempts within any trailing 600-second window over every
chronological sequence of unexpected drops with credentials present
(on each drop it prunes entries older than 600 seconds, suppresses at
5 or more remaining entries, otherwise records the attempt); a
discovery event clears the history entirely; and 6 drops within 60
seconds produce exactly the first 5 reconnect attempts, the 6th being
suppressed. -/
theorem C2_reconnect_window (c : String) (drops : List Nat)
    (hpw : drops.Pairwise (· ≤ ·)) :
    (∀ T, windowCount T (runDrops c [] drops).2 ≤ 5)
    ∧ (∀ (s : MainState) (inp : PollInputs) (creds : String),
       s.discoveryEnabled = true → inp.discoveryReady = some creds →
       ((pollDiscovery s inp).1).autoConnectTimes = [])
    ∧ (runDrops "creds" [] [0, 10, 20, 30, 40, 50]).2 = [0, 10, 20, 30, 40] := by
  refine ⟨?_, ?_, ?_⟩
  · intro T
    have := runDrops_bound c drops 0 [] [] hpw (fun x _ => Nat.zero_le x)
      ⟨⟨[], rfl, by simp⟩, by simp, fun T2 => by simp [windowCount]⟩ T
    simpa using this
  · intro s inp creds hd hr
    simp [pollDiscovery, MainState.credentials, hd, hr]
  · rfl

/-- C2 witness: the window bound evaluated on the concrete 6-drop
scenario. -/
theorem C2_witness :
    windowCount 600 (runDrops "creds" [] [0, 10, 20, 30, 40, 50]).2 ≤ 5 :=
  (C2_reconnect_window "creds" [0, 10, 20, 30, 40, 50] (by decide)).1 600

end Spotty
